import Mathlib

/-!
Verification of the rocalution accelerator backend
(opm/simulators/linalg/gpubridge/rocm/rocalutionSolverBackend.cpp).

The translation unit drives one solve through the external rocalution
library: it initialises session dimensions on first use, copies the
caller BCSR matrix into freshly allocated staging buffers (transposing
each 3x3 block when BCSR_IND_BASE == 0), hands the buffers to rocalution,
runs BiCGStab once, and fills a GpuResult record from the solver status.

Modelling conventions:
* C arrays read from the caller are Lean lists; an out-of-bounds read or
  write (undefined behaviour in C++) makes the modelled operation return
  none.
* A heap buffer obtained from new[] is a Buf: a length plus a map
  with optional entries; entries never written stay none
  (uninitialised memory).
* The external rocalution solver (BiCGStab iteration, norms, std::pow)
  is not part of this repository; its outputs are inputs of the model
  (RocOutcome, a norm function, a pow function).  IEEE-754 special
  values reachable from this translation unit (1.0/0 = +inf, 0.0/0 = NaN,
  pow at an infinite exponent) are modelled exactly by FVal; finite
  inexact arithmetic is modelled over the rationals.
-/

namespace Rocalution

/-- The caller-side block sparse matrix, as used through the
BlockedMatrix pointer in the source: block row count Nb, block count
nnzbs, row pointers, column indices and the flat value array. -/
structure BlockedMatrix (α : Type) where
  Nb : Nat
  nnzbs : Nat
  rowPointers : List Int
  colIndices : List Int
  nnzValues : List α

/-- A heap buffer from new[]: its allocated length and its contents,
none meaning the cell was never written (uninitialised memory). -/
structure Buf (α : Type) where
  size : Nat
  data : Nat → Option α

/-- new T[n]: n cells, all uninitialised. -/
def Buf.alloc (α : Type) (n : Nat) : Buf α := ⟨n, fun _ => none⟩

/-- A bounds-checked store buf[i] = v; storing past the allocation is
undefined behaviour and is modelled as failure. -/
def Buf.write (b : Buf α) (i : Nat) (v : α) : Option (Buf α) :=
  if i < b.size then some ⟨b.size, Function.update b.data i (some v)⟩ else none

/-- The nine assignments of the value-conversion loop body
(rocalutionSolverBackend.cpp lines 119-127), as pairs
(destination offset, source offset) in source order:
tmp[i*bs*bs + fst] = matrix->nnzValues[i*bs*bs + snd]. -/
def rocPerm : List (Nat × Nat) := [(0,0),(1,3),(2,6),(3,1),(4,4),(5,7),(6,2),(7,5),(8,8)]

/-- One iteration of the value-conversion loop: the nine hard-coded
assignments for block i, reading the caller array and writing the
staging buffer. -/
def convertBlock (bs : Nat) (src : List α) (i : Nat) (b : Buf α) : Option (Buf α) :=
  rocPerm.foldlM (fun acc p => do
    let v ← src[i * bs * bs + p.2]?
    acc.write (i * bs * bs + p.1) v) b

/-- The value-conversion loop, iterations i = 0 .. n-1 in order
(the source loop for (int i = 0; i < nnzb; ++i)). -/
def convertValuesLoop (bs : Nat) (src : List α) : Nat → Buf α → Option (Buf α)
  | 0, b => some b
  | n+1, b => do
      let b2 ← convertValuesLoop bs src n b
      convertBlock bs src n b2

/-- The whole value conversion of convert_matrix: allocate
new Scalar[nnzb*bs*bs] and run the loop over all nnzb blocks. -/
def convert_values (bs nnzb : Nat) (src : List α) : Option (Buf α) :=
  convertValuesLoop bs src nnzb (Buf.alloc α (nnzb * bs * bs))

/-- The copy loop for (int i = 0; i < n; ++i) tmp[i] = src[i], building
the freshly allocated destination in index order; reading past the end
of src is undefined behaviour, modelled as failure. -/
def copyLoop (src : List β) : Nat → Option (List β)
  | 0 => some []
  | n+1 => do
      let pre ← copyLoop src n
      let v ← src[n]?
      some (pre ++ [v])

/-- The three staging buffers convert_matrix fills: tmp_rowpointers,
tmp_colindices and tmp_nnzvalues. -/
structure ConvertedData (α : Type) where
  rowPointers : List Int
  colIndices : List Int
  values : Buf α

/-- convert_matrix (lines 100-135): copy Nb+1 row pointers and nnzb
column indices verbatim, then, only when BCSR_IND_BASE == 0 (rocalution
expects column-major blocks), run the hard-coded nine-entry value loop;
for BCSR_IND_BASE == 1 the value buffer keeps its uninitialised
new[] contents.  Nb and nnzb are the session fields, not the fields of
the incoming matrix. -/
def convert_matrix (base bs Nb nnzb : Nat) (m : BlockedMatrix α) :
    Option (ConvertedData α) := do
  let rp ← copyLoop m.rowPointers (Nb + 1)
  let ci ← copyLoop m.colIndices nnzb
  let vals ← if base = 0 then convert_values bs nnzb m.nnzValues
             else some (Buf.alloc α (nnzb * bs * bs))
  some ⟨rp, ci, vals⟩

/-- An IEEE-754 double restricted to what this translation unit can
produce: a finite value (modelled exactly as a rational), the two
infinities, or NaN. -/
inductive FVal where
  | fin : ℚ → FVal
  | inf : FVal
  | ninf : FVal
  | nan : FVal
deriving DecidableEq

/-- IEEE-754 division as used in solve_system: a finite numerator over
a finite denominator; x/0 is +-inf by the sign of x and 0/0 is NaN
(exact IEEE semantics, no rounding involved in these cases).  Divisions
with non-finite operands do not occur in this translation unit. -/
def FVal.div : FVal → FVal → FVal
  | FVal.fin a, FVal.fin b =>
      if b = 0 then (if a = 0 then FVal.nan else if 0 < a then FVal.inf else FVal.ninf)
      else FVal.fin (a / b)
  | _, _ => FVal.nan

/-- The std::pow special cases reachable from solve_system, per
IEEE 754 / C99 annex F: pow(+-1, +-inf) = 1, pow(x, +inf) = 0 for
abs x < 1 and +inf for abs x > 1, pow(NaN, +inf) = NaN.  Finite
exponents (iterations > 0) give irrational values in general and are
not fixed by this function; theorems about that branch quantify over
the pow function instead. -/
def powSpecials : FVal → FVal → FVal
  | FVal.fin b, FVal.inf =>
      if b = 1 ∨ b = -1 then FVal.fin 1
      else if -1 < b ∧ b < 1 then FVal.fin 0 else FVal.inf
  | FVal.nan, FVal.inf => FVal.nan
  | _, _ => FVal.nan

/-- What the external rocalution solver hands back after Solve: the
status code of GetSolverStatus (per the source comment at lines
208-213: 0 none, 1 absolute tolerance, 2 relative tolerance,
3 divergence tolerance, 4 maximum iterations), the iteration count,
the current residual norm, and the device solution vector. -/
structure RocOutcome (α : Type) where
  status : Int
  iterationCount : Nat
  currentResidual : ℚ
  solution : List α

/-- The termination criteria named by the source comment, with their
GetSolverStatus codes. -/
inductive RocTermination where
  | noCriteria | absTolReached | relTolReached | divTolReached | maxIterReached
deriving DecidableEq

/-- GetSolverStatus code of each termination criterion (source comment,
lines 208-213). -/
def RocTermination.code : RocTermination → Int
  | RocTermination.noCriteria => 0
  | RocTermination.absTolReached => 1
  | RocTermination.relTolReached => 2
  | RocTermination.divTolReached => 3
  | RocTermination.maxIterReached => 4

/-- The GpuResult record populated by solve_system. -/
structure GpuResult where
  converged : Bool
  iterations : Nat
  elapsed : ℚ
  reduction : FVal
  conv_rate : FVal
deriving DecidableEq

/-- Lines 215-219 of solve_system: populate the result record from the
solver outcome.  reduction = GetCurrentResidual() / norm_0;
conv_rate = pow(reduction, 1.0 / iterations) with no guard on
iterations; converged compares GetSolverStatus() with 2 only. -/
def populateResult (pow : FVal → FVal → FVal) (elapsed : ℚ) (norm0 : ℚ)
    (o : RocOutcome α) : GpuResult :=
  let reduction := FVal.div (FVal.fin o.currentResidual) (FVal.fin norm0)
  { converged := o.status = 2
    iterations := o.iterationCount
    elapsed := elapsed
    reduction := reduction
    conv_rate := pow reduction (FVal.div (FVal.fin 1) (FVal.fin o.iterationCount)) }

/-- The session fields of the backend object used by this translation
unit: the initialized flag, the dimensions captured by initialize, and
the host result vector h_x. -/
structure SessionState (α : Type) where
  initialized : Bool
  Nb : Nat
  nnzb : Nat
  h_x : List α

/-- std::vector resize: keep the prefix, pad with value-initialised
zeroes. -/
def resizeVec [Zero α] (v : List α) (n : Nat) : List α :=
  v.take n ++ List.replicate (n - v.length) 0

/-- initialize (lines 80-97): capture Nb and nnzbs from the incoming
matrix, resize h_x to Nb*block_size, set the initialized flag.  (The
derived fields N and nnz are not read again in this translation unit
and are omitted.) -/
def initBackend [Zero α] (bs : Nat) (m : BlockedMatrix α) (s : SessionState α) :
    SessionState α :=
  { initialized := true
    Nb := m.Nb
    nnzb := m.nnzbs
    h_x := resizeVec s.h_x (m.Nb * bs) }

/-- memcpy of the device solution (length GetN = session Nb * bs, which
equals the length of h_x after initialize) into h_x: overwrite the
prefix. -/
def copyToData (dst src : List α) : List α :=
  src.take dst.length ++ dst.drop src.length

/-- The SolverStatus return type of solve_system (gpubridge contract);
this translation unit only ever produces GPU_SOLVER_SUCCESS. -/
inductive SolverStatus where
  | GPU_SOLVER_SUCCESS | GPU_SOLVER_ANALYSIS_FAILED | GPU_SOLVER_UNKNOWN_ERROR
deriving DecidableEq

/-- Everything solve_system hands to the external rocalution solver:
the three staged matrix arrays (ownership moved by SetDataPtrBCSR), the
right-hand side copied from the caller by CopyFromData, and the zeroed
initial guess. -/
structure StagedSystem (α : Type) where
  rowPointers : List Int
  colIndices : List Int
  values : Buf α
  rhs : List α
  x0 : List α

/-- The observable effect of one solve_system call: the session state
after the call, the system staged for rocalution, the populated result
record, the returned SolverStatus, and the caller matrix as it stands
after the call (the source never writes through the matrix pointer, so
the model returns the caller arrays it was given). -/
structure SolveOutput (α : Type) where
  state : SessionState α
  staged : StagedSystem α
  result : GpuResult
  retCode : SolverStatus
  matrixAfter : BlockedMatrix α

/-- solve_system (lines 154-238).  base is BCSR_IND_BASE, bs the
block_size template parameter; pow and normF stand for std::pow and
rocalution Norm(); elapsed is the wall time of the Solve call; o is the
outcome of the single rocalution Solve invocation.  jacMatrix and
wellContribs are the [[maybe_unused]] parameters of the source: they
are accepted and never read.  Steps, in source order: initialize on
first use; allocate staging buffers and convert the matrix; stage the
right-hand side and the zero initial guess; norm_0 = Norm(rhs); Solve;
populate the result; copy the device solution into h_x; return
GPU_SOLVER_SUCCESS unconditionally. -/
def solve_system [Zero α] (base bs : Nat) (pow : FVal → FVal → FVal)
    (normF : List α → ℚ) (elapsed : ℚ) (o : RocOutcome α)
    (s : SessionState α) (matrix : BlockedMatrix α) (b : List α)
    (jacMatrix : Option (BlockedMatrix α)) (wellContribs : List α) :
    Option (SolveOutput α) := do
  let s1 := if s.initialized = false then initBackend bs matrix s else s
  let cd ← convert_matrix base bs s1.Nb s1.nnzb matrix
  let rhs ← copyLoop b (s1.Nb * bs)
  let staged : StagedSystem α :=
    { rowPointers := cd.rowPointers
      colIndices := cd.colIndices
      values := cd.values
      rhs := rhs
      x0 := List.replicate (s1.Nb * bs) 0 }
  let norm0 := normF staged.rhs
  let res := populateResult pow elapsed norm0 o
  let s2 : SessionState α := { s1 with h_x := copyToData s1.h_x o.solution }
  some { state := s2, staged := staged, result := res
         retCode := SolverStatus.GPU_SOLVER_SUCCESS, matrixAfter := matrix }

/-- get_result (lines 139-152): copy h_x into the caller buffer. -/
def get_result (s : SessionState α) : List α := s.h_x

/-- The intra-block transpose index map for 3x3 blocks: row-major
offset d corresponds to column-major offset d % 3 * 3 + d / 3; on
0..8 this is exactly the table {0,3,6,1,4,7,2,5,8}. -/
def t3 (d : Nat) : Nat := d % 3 * 3 + d / 3

/-- A fresh, never-initialised session. -/
def sFresh : SessionState ℚ := ⟨false, 0, 0, []⟩

/-- A session already initialised for a 1-block-row, 1-block matrix
with block size 3. -/
def sOld : SessionState ℚ := ⟨true, 1, 1, [0, 0, 0]⟩

/-- A rocalution outcome: relative tolerance reached (status 2) after
zero iterations with residual 0. -/
def oZ : RocOutcome ℚ := ⟨2, 0, 0, [0, 0, 0]⟩

/-- A zero right-hand side of three scalar rows. -/
def bZ : List ℚ := [0, 0, 0]

/-- A nonzero right-hand side of three scalar rows. -/
def bVals : List ℚ := [1, 2, 3]

/-- A well-formed 1x1-block matrix with block size 3 and distinct
values. -/
def mSmall : BlockedMatrix ℚ := ⟨1, 1, [0, 1], [0], [10, 11, 12, 13, 14, 15, 16, 17, 18]⟩

/-- A structurally malformed matrix: its only column index is 7,
outside the valid block-column range [0, 1). -/
def mBad : BlockedMatrix ℚ := ⟨1, 1, [0, 1], [7], [1, 2, 3, 4, 5, 6, 7, 8, 9]⟩

/-- A well-formed 2x2-block matrix with block size 3: larger than
mSmall in both Nb and nnzb. -/
def mBig : BlockedMatrix ℚ := ⟨2, 2, [0, 1, 2], [0, 1], List.replicate 18 0⟩

/-- A nonzero external well-contribution payload. -/
def wcNonzero : List ℚ := [5, 5, 5]

theorem t3_involutive : ∀ d < 9, t3 (t3 d) = d := by decide

theorem t3_lt : ∀ d < 9, t3 d < 9 := by decide

/-- One loop iteration at block i, for block size 3: every read and
write stays inside block i, the buffer length is unchanged, and cell
i*9+d of the buffer receives source entry i*9+t3 d while all other
cells are untouched. -/
theorem convertBlock3_spec (src : List α) (i : Nat) (n : Nat) (f : Nat → Option α)
    (hs : i*3*3 + 9 ≤ src.length) (hn : i*3*3 + 9 ≤ n) :
    ∃ g, convertBlock 3 src i ⟨n, f⟩ = some ⟨n, g⟩ ∧
      ∀ j, g j = if i*3*3 ≤ j ∧ j < i*3*3 + 9 then src[i*3*3 + t3 (j - i*3*3)]? else f j := by
  obtain ⟨v0, hv0⟩ : ∃ v, src[i*3*3]? = some v := ⟨_, List.getElem?_eq_getElem (by omega)⟩
  obtain ⟨v1, hv1⟩ : ∃ v, src[i*3*3+1]? = some v := ⟨_, List.getElem?_eq_getElem (by omega)⟩
  obtain ⟨v2, hv2⟩ : ∃ v, src[i*3*3+2]? = some v := ⟨_, List.getElem?_eq_getElem (by omega)⟩
  obtain ⟨v3, hv3⟩ : ∃ v, src[i*3*3+3]? = some v := ⟨_, List.getElem?_eq_getElem (by omega)⟩
  obtain ⟨v4, hv4⟩ : ∃ v, src[i*3*3+4]? = some v := ⟨_, List.getElem?_eq_getElem (by omega)⟩
  obtain ⟨v5, hv5⟩ : ∃ v, src[i*3*3+5]? = some v := ⟨_, List.getElem?_eq_getElem (by omega)⟩
  obtain ⟨v6, hv6⟩ : ∃ v, src[i*3*3+6]? = some v := ⟨_, List.getElem?_eq_getElem (by omega)⟩
  obtain ⟨v7, hv7⟩ : ∃ v, src[i*3*3+7]? = some v := ⟨_, List.getElem?_eq_getElem (by omega)⟩
  obtain ⟨v8, hv8⟩ : ∃ v, src[i*3*3+8]? = some v := ⟨_, List.getElem?_eq_getElem (by omega)⟩
  have c0 : i*3*3 < n := by omega
  have c1 : i*3*3+1 < n := by omega
  have c2 : i*3*3+2 < n := by omega
  have c3 : i*3*3+3 < n := by omega
  have c4 : i*3*3+4 < n := by omega
  have c5 : i*3*3+5 < n := by omega
  have c6 : i*3*3+6 < n := by omega
  have c7 : i*3*3+7 < n := by omega
  have c8 : i*3*3+8 < n := by omega
  refine ⟨Function.update (Function.update (Function.update (Function.update (Function.update (Function.update (Function.update (Function.update (Function.update f (i*3*3) (some v0)) (i*3*3+1) (some v3)) (i*3*3+2) (some v6)) (i*3*3+3) (some v1)) (i*3*3+4) (some v4)) (i*3*3+5) (some v7)) (i*3*3+6) (some v2)) (i*3*3+7) (some v5)) (i*3*3+8) (some v8), ?_, ?_⟩
  · simp [convertBlock, rocPerm, List.foldlM, Buf.write,
      hv0, hv1, hv2, hv3, hv4, hv5, hv6, hv7, hv8, c0, c1, c2, c3, c4, c5, c6, c7, c8]
  · intro j
    by_cases hj : i*3*3 ≤ j ∧ j < i*3*3 + 9
    · rw [if_pos hj]
      obtain ⟨d, hd9, rfl⟩ : ∃ d, d < 9 ∧ j = i*3*3 + d := ⟨j - i*3*3, by omega, by omega⟩
      interval_cases d <;>
        simp [Function.update_apply, Nat.add_sub_cancel_left, t3, add_right_inj,
          hv0, hv1, hv2, hv3, hv4, hv5, hv6, hv7, hv8]
    · rw [if_neg hj]
      repeat rw [Function.update_noteq (by omega)]

/-- The value-conversion loop for block size 3, run for n blocks over a
buffer of unchanged length: cell j with j < 9n holds source entry
9*(j/9) + t3 (j mod 9); cells at or past 9n keep their previous
contents. -/
theorem convertValuesLoop3_spec (src : List α) :
    ∀ (n L : Nat) (f : Nat → Option α), 9*n ≤ src.length → 9*n ≤ L →
    ∃ g, convertValuesLoop 3 src n ⟨L, f⟩ = some ⟨L, g⟩ ∧
      ∀ j, g j = if j < 9*n then src[9*(j/9) + t3 (j % 9)]? else f j := by
  intro n
  induction n with
  | zero =>
      intro L f _ _
      exact ⟨f, rfl, fun j => by simp⟩
  | succ n ih =>
      intro L f hs hL
      obtain ⟨g1, h1, hp1⟩ := ih L f (by omega) (by omega)
      obtain ⟨g2, h2, hp2⟩ := convertBlock3_spec src n L g1 (by omega) (by omega)
      refine ⟨g2, ?_, ?_⟩
      · simp [convertValuesLoop, h1, h2]
      · intro j
        rcases Nat.lt_or_ge j (9*n) with hlo | hge
        · have hout : ¬ (n*3*3 ≤ j ∧ j < n*3*3 + 9) := by omega
          rw [hp2 j, if_neg hout, hp1 j, if_pos hlo, if_pos (by omega)]
        · rcases Nat.lt_or_ge j (9*(n+1)) with hmid | hhi
          · have hin : n*3*3 ≤ j ∧ j < n*3*3 + 9 := by omega
            rw [hp2 j, if_pos hin, if_pos hmid]
            have e1 : j / 9 = n := by omega
            have e2 : j % 9 = j - n*3*3 := by omega
            rw [e1, e2]
            congr 2
            omega
          · have hout : ¬ (n*3*3 ≤ j ∧ j < n*3*3 + 9) := by omega
            rw [hp2 j, if_neg hout, hp1 j, if_neg (by omega), if_neg (by omega)]

/-- convert_values with block size 3 on a source of exactly 9*nnzb
entries: it succeeds, the buffer has the allocated length nnzb*3*3, the
in-range cells hold the block-transposed source entries and the rest of
the buffer stays uninitialised (there is none). -/
theorem convert_values3_spec (src : List α) (nnzb : Nat) (hs : src.length = 9 * nnzb) :
    ∃ g, convert_values 3 nnzb src = some ⟨nnzb*3*3, g⟩ ∧
      ∀ j, g j = if j < 9*nnzb then src[9*(j/9) + t3 (j % 9)]? else none := by
  obtain ⟨g, hg, hp⟩ := convertValuesLoop3_spec src nnzb (nnzb*3*3)
    (fun _ => none) (by omega) (by omega)
  exact ⟨g, hg, hp⟩

/-- The copy loop succeeds when the source is long enough and produces
the n-entry index-order copy of the source, that is its length-n
front segment. -/
theorem copyLoop_spec (src : List β) :
    ∀ n : Nat, n ≤ src.length → copyLoop src n = some (src.take n) := by
  intro n
  induction n with
  | zero => intro _; rfl
  | succ n ih =>
      intro h
      have hn : n < src.length := by omega
      rw [List.take_succ]
      simp [copyLoop, ih (by omega), List.getElem?_eq_getElem hn]

/-- Whenever the copy loop succeeds its output has exactly n entries. -/
theorem copyLoop_length (src : List β) :
    ∀ (n : Nat) (r : List β), copyLoop src n = some r → r.length = n := by
  intro n
  induction n with
  | zero =>
      intro r h
      cases h
      rfl
  | succ n ih =>
      intro r h
      simp only [copyLoop, bind, Option.bind_eq_some] at h
      obtain ⟨pre, hpre, h⟩ := h
      obtain ⟨v, _, h⟩ := h
      cases h
      simp [ih pre hpre]

/-- A successful bounds-checked store never changes the allocated
length. -/
theorem Buf.write_size (b : Buf α) (i : Nat) (v : α) (b2 : Buf α)
    (h : b.write i v = some b2) : b2.size = b.size := by
  unfold Buf.write at h
  split at h
  · cases h; rfl
  · cases h

/-- Each loop iteration preserves the allocated length of the staging
buffer, for every block size. -/
theorem convertBlock_size (bs : Nat) (src : List α) (i : Nat) :
    ∀ (l : List (Nat × Nat)) (b b2 : Buf α),
      (l.foldlM (fun acc p => do
        let v ← src[i * bs * bs + p.2]?
        acc.write (i * bs * bs + p.1) v) b) = some b2 → b2.size = b.size := by
  intro l
  induction l with
  | nil =>
      intro b b2 h
      cases h
      rfl
  | cons p l ih =>
      intro b b2 h
      simp only [List.foldlM, bind, Option.bind_eq_some] at h
      obtain ⟨b1, ⟨v, _, hw⟩, h⟩ := h
      have := ih b1 b2 (by simpa [bind] using h)
      rw [this, Buf.write_size _ _ _ _ hw]

/-- The whole value-conversion loop preserves the allocated length of
the staging buffer, for every block size. -/
theorem convertValuesLoop_size (bs : Nat) (src : List α) :
    ∀ (n : Nat) (b b2 : Buf α),
      convertValuesLoop bs src n b = some b2 → b2.size = b.size := by
  intro n
  induction n with
  | zero =>
      intro b b2 h
      cases h
      rfl
  | succ n ih =>
      intro b b2 h
      simp only [convertValuesLoop, bind, Option.bind_eq_some] at h
      obtain ⟨b1, hb1, h⟩ := h
      rw [convertBlock_size bs src n rocPerm b1 b2 h, ih b b1 hb1]

/-- Whatever the block convention, a successful convert_matrix call
produces staging buffers sized by the session dimensions it was given:
Nb+1 row pointers, nnzb column indices, nnzb*bs*bs value cells. -/
theorem convert_matrix_sizes (base bs Nb nnzb : Nat) (m : BlockedMatrix α)
    (cd : ConvertedData α) (h : convert_matrix base bs Nb nnzb m = some cd) :
    cd.rowPointers.length = Nb + 1 ∧ cd.colIndices.length = nnzb ∧
      cd.values.size = nnzb * bs * bs := by
  by_cases hb : base = 0
  · subst hb
    simp only [convert_matrix, reduceIte, bind, Option.bind_eq_some, Option.some.injEq] at h
    obtain ⟨rp, hrp, ci, hci, vals, hvals, hcd⟩ := h
    subst hcd
    exact ⟨copyLoop_length _ _ _ hrp, copyLoop_length _ _ _ hci,
      convertValuesLoop_size bs m.nnzValues nnzb _ _ hvals⟩
  · simp only [convert_matrix, if_neg hb, bind, Option.bind_eq_some, Option.some.injEq] at h
    obtain ⟨rp, hrp, ci, hci, vals, hvals, hcd⟩ := h
    subst hcd
    rw [← hvals]
    exact ⟨copyLoop_length _ _ _ hrp, copyLoop_length _ _ _ hci, rfl⟩

/-- A successful convert_matrix call under the column-major convention
with block size 3 and exact array lengths: the row pointers and column
indices are copied verbatim and every 3x3 block of values is
transposed — the value at row-major offset s of block i lands at
column-major offset t3 s, the table {0,3,6,1,4,7,2,5,8}. -/
theorem convert_matrix3_spec (m : BlockedMatrix α)
    (hrp : m.rowPointers.length = m.Nb + 1)
    (hci : m.colIndices.length = m.nnzbs)
    (hv : m.nnzValues.length = 9 * m.nnzbs) :
    ∃ g, convert_matrix 0 3 m.Nb m.nnzbs m =
        some ⟨m.rowPointers, m.colIndices, ⟨m.nnzbs*3*3, g⟩⟩ ∧
      (∀ i < m.nnzbs, ∀ s < 9, g (9*i + t3 s) = m.nnzValues[9*i + s]?) ∧
      (∀ j, 9*m.nnzbs ≤ j → g j = none) := by
  obtain ⟨g, hg, hp⟩ := convert_values3_spec m.nnzValues m.nnzbs hv
  have h1 : copyLoop m.rowPointers (m.Nb + 1) = some m.rowPointers := by
    have := copyLoop_spec m.rowPointers (m.Nb + 1) (by omega)
    simpa [List.take_of_length_le, hrp] using this
  have h2 : copyLoop m.colIndices m.nnzbs = some m.colIndices := by
    have := copyLoop_spec m.colIndices m.nnzbs (by omega)
    simpa [List.take_of_length_le, hci] using this
  refine ⟨g, ?_, ?_, ?_⟩
  · simp [convert_matrix, h1, h2, hg]
  · intro i hi s hs
    have hlt : 9*i + t3 s < 9*m.nnzbs := by
      have := t3_lt s hs
      omega
    rw [hp _, if_pos hlt]
    have e1 : (9*i + t3 s) / 9 = i := by
      have := t3_lt s hs
      omega
    have e2 : (9*i + t3 s) % 9 = t3 s := by
      have := t3_lt s hs
      omega
    rw [e1, e2, t3_involutive s hs]
  · intro j hj
    rw [hp j, if_neg (by omega)]

/-- Shape of a successful solve_system call: s1 is the session state
after the conditional first-call initialisation; the call succeeds
exactly when the matrix conversion and the right-hand-side copy
succeed, and then every component of the output is determined: the
staged system is built from the converted buffers, the result record
is populated from the single solver outcome, the returned code is
GPU_SOLVER_SUCCESS and the caller matrix comes back unchanged. -/
theorem solve_system_some_iff [Zero α] (base bs : Nat)
    (pow : FVal → FVal → FVal) (normF : List α → ℚ) (e : ℚ)
    (o : RocOutcome α) (s : SessionState α) (m : BlockedMatrix α)
    (b : List α) (jm : Option (BlockedMatrix α)) (wc : List α)
    (out : SolveOutput α) (s1 : SessionState α)
    (hs1 : (if s.initialized = false then initBackend bs m s else s) = s1) :
    solve_system base bs pow normF e o s m b jm wc = some out ↔
      ∃ cd rhs,
        convert_matrix base bs s1.Nb s1.nnzb m = some cd ∧
        copyLoop b (s1.Nb * bs) = some rhs ∧
        out = { state := { s1 with h_x := copyToData s1.h_x o.solution }
                staged := { rowPointers := cd.rowPointers
                            colIndices := cd.colIndices
                            values := cd.values
                            rhs := rhs
                            x0 := List.replicate (s1.Nb * bs) 0 }
                result := populateResult pow e (normF rhs) o
                retCode := SolverStatus.GPU_SOLVER_SUCCESS
                matrixAfter := m } := by
  subst hs1
  simp only [solve_system, bind, Option.bind_eq_some, Option.some.injEq]
  constructor
  · rintro ⟨cd, hcd, rhs, hrhs, hout⟩
    exact ⟨cd, rhs, hcd, hrhs, hout.symm⟩
  · rintro ⟨cd, rhs, hcd, hrhs, hout⟩
    exact ⟨cd, hcd, rhs, hrhs, hout.symm⟩

/-- C1 (amended): the returned SolverResult has converged = true
exactly when the iteration terminated with the relative residual at or
below tolerance (GetSolverStatus code 2); termination by the absolute
tolerance, by divergence, by the iteration cap, or no criterion at all
each yield converged = false. -/
theorem C1_converged_iff_relative (pow : FVal → FVal → FVal) (e n0 : ℚ)
    (o : RocOutcome α) (t : RocTermination) (h : o.status = t.code) :
    (populateResult pow e n0 o).converged = true ↔ t = RocTermination.relTolReached := by
  cases t <;> simp [populateResult, RocTermination.code, h]

theorem C1_witness :
    ((populateResult powSpecials 1 0 oZ).converged = true) ↔
      RocTermination.relTolReached = RocTermination.relTolReached :=
  C1_converged_iff_relative powSpecials 1 0 oZ RocTermination.relTolReached rfl

/-- C1 counterexample: an iteration that terminates because the
absolute residual reached absoluteTolerance (GetSolverStatus code 1)
is reported with converged = false, although the claim requires
converged = true for that termination. -/
theorem C1_counterexample_absolute_tolerance :
    (populateResult powSpecials 1 0
      (⟨RocTermination.absTolReached.code, 0, 0, ([] : List ℚ)⟩ : RocOutcome ℚ)).converged
      = false := by decide

/-- C2 counterexample: for block size 2 (a well-formed single-block
matrix) the hard-coded nine-offset loop reads past the 4-entry block,
so convert_matrix performs no 1:1 permutation of the block values at
all (out-of-bounds access in the C++); the claim, quantified over
every BlockedMatrix, therefore fails. -/
theorem C2_counterexample_blocksize2 :
    convert_matrix 0 2 1 1 (⟨1, 1, [0, 1], [0], [1, 2, 3, 4]⟩ : BlockedMatrix ℤ) = none := rfl

/-- C2 (amended): for block size 3, under the column-major convention
(BCSR_IND_BASE = 0) and with well-sized caller arrays, convert_matrix
performs a bit-exact 1:1 permutation of each 3x3 block — the value at
row-major offset s of block i lands at column-major offset t3 s, the
table {0,3,6,1,4,7,2,5,8} — and copies the Nb+1 row pointers and the
nnzb column indices verbatim, leaving the sparsity structure
unchanged. -/
theorem C2_blocksize3_transpose (m : BlockedMatrix α)
    (hrp : m.rowPointers.length = m.Nb + 1)
    (hci : m.colIndices.length = m.nnzbs)
    (hv : m.nnzValues.length = 9 * m.nnzbs) :
    ∃ g, convert_matrix 0 3 m.Nb m.nnzbs m =
        some ⟨m.rowPointers, m.colIndices, ⟨m.nnzbs*3*3, g⟩⟩ ∧
      (∀ i < m.nnzbs, ∀ s < 9, g (9*i + t3 s) = m.nnzValues[9*i + s]?) ∧
      (∀ j, 9*m.nnzbs ≤ j → g j = none) :=
  convert_matrix3_spec m hrp hci hv

theorem C2_witness :
    ∃ g, convert_matrix 0 3 mSmall.Nb mSmall.nnzbs mSmall =
        some ⟨mSmall.rowPointers, mSmall.colIndices, ⟨mSmall.nnzbs*3*3, g⟩⟩ ∧
      (∀ i < mSmall.nnzbs, ∀ s < 9, g (9*i + t3 s) = mSmall.nnzValues[9*i + s]?) ∧
      (∀ j, 9*mSmall.nnzbs ≤ j → g j = none) :=
  C2_blocksize3_transpose mSmall rfl rfl rfl

/-- C3: the conversion evaluated at the failing inputs.  For block
sizes 1 and 2 the hard-coded 3x3 offsets read outside the block (and
outside the whole value array), so the conversion is undefined
behaviour in the C++ and fails in the model; no round trip can
reproduce the original values there.  (For block size 3 the conversion
is the involutive block transpose, as proved for claim C2.) -/
theorem C3_hardcoded_offsets_fail :
    convert_values 1 1 [(3 : ℤ)] = none ∧
      convert_values 2 1 [(1 : ℤ), 2, 3, 4] = none := ⟨rfl, rfl⟩

/-- C4 (amended): conv_rate is computed as
pow(reduction, 1.0 / iterations) with no guard on the iteration count:
for iterations = 0 the exponent is the IEEE division 1.0/0 = +inf, so
convergenceRate is pow(reduction, +inf), not the constant 1.0; for
iterations = n+1 the exponent is the finite 1/(n+1). -/
theorem C4_conv_rate_unguarded (pow : FVal → FVal → FVal) (e n0 : ℚ) (o : RocOutcome α) :
    (populateResult pow e n0 o).conv_rate =
      pow (FVal.div (FVal.fin o.currentResidual) (FVal.fin n0))
        (if o.iterationCount = 0 then FVal.inf
         else FVal.fin (1 / (o.iterationCount : ℚ))) := by
  cases ho : o.iterationCount with
  | zero => simp [populateResult, FVal.div, ho]
  | succ k =>
      have hne : ((k : ℚ) + 1) ≠ 0 := by positivity
      simp [populateResult, FVal.div, ho, hne]

/-- C4 counterexample: a solve that stops after zero iterations with a
zero right-hand side (norm 0, residual 0) reports
conv_rate = pow(0/0, 1/0) = pow(NaN, +inf) = NaN, not the claimed
guarded value 1.0. -/
theorem C4_counterexample_zero_iterations :
    (populateResult powSpecials 1 0 (⟨1, 0, 0, ([] : List ℚ)⟩ : RocOutcome ℚ)).conv_rate
        = FVal.nan ∧
      FVal.nan ≠ FVal.fin 1 := ⟨by decide, by decide⟩

/-- C5 (amended): the converter performs no structural validation at
all: even when some column index lies outside the valid range [0, Nb),
convert_matrix succeeds and passes the row pointers and column indices
through verbatim; no structural error is raised and nothing aborts the
call. -/
theorem C5_no_structural_validation (m : BlockedMatrix α)
    (hrp : m.rowPointers.length = m.Nb + 1)
    (hci : m.colIndices.length = m.nnzbs)
    (hv : m.nnzValues.length = 9 * m.nnzbs)
    (hbad : ∃ c ∈ m.colIndices, c < 0 ∨ (m.Nb : Int) ≤ c) :
    ∃ cd, convert_matrix 0 3 m.Nb m.nnzbs m = some cd ∧
      cd.rowPointers = m.rowPointers ∧ cd.colIndices = m.colIndices := by
  obtain ⟨g, hg, _, _⟩ := convert_matrix3_spec m hrp hci hv
  exact ⟨_, hg, rfl, rfl⟩

theorem C5_witness :
    ∃ cd, convert_matrix 0 3 mBad.Nb mBad.nnzbs mBad = some cd ∧
      cd.rowPointers = mBad.rowPointers ∧ cd.colIndices = mBad.colIndices :=
  C5_no_structural_validation mBad rfl rfl rfl ⟨7, by decide, by decide⟩

/-- C5 counterexample: a solve call on the malformed matrix mBad
(column index 7 with Nb = 1) does not fail fast before the iteration:
it runs to completion, returns GPU_SOLVER_SUCCESS and hands the
out-of-range column index 7 verbatim to the solver. -/
theorem C5_counterexample_malformed_accepted :
    ((solve_system 0 3 powSpecials (fun _ => 0) 1 oZ sFresh mBad bZ none []).map
        fun out => (out.retCode, out.staged.colIndices)) =
      some (SolverStatus.GPU_SOLVER_SUCCESS, [7]) := by decide

/-- C6 (amended): once a session is initialised its dimensions are
frozen: any later solve call — whatever the dimensions of the matrix
it passes — leaves the session dimensions unchanged and allocates its
fresh staging buffers sized by the stored first-call dimensions
(Nb+1 row pointers, nnzb column indices, nnzb*bs*bs value cells); a
change of Nb or nnzb in the incoming matrix triggers no
re-initialisation. -/
theorem C6_dimensions_frozen [Zero α] (base bs : Nat) (pow : FVal → FVal → FVal)
    (normF : List α → ℚ) (e : ℚ) (o : RocOutcome α) (s : SessionState α)
    (m : BlockedMatrix α) (b : List α) (jm : Option (BlockedMatrix α))
    (wc : List α) (out : SolveOutput α)
    (hinit : s.initialized = true)
    (h : solve_system base bs pow normF e o s m b jm wc = some out) :
    out.state.initialized = true ∧ out.state.Nb = s.Nb ∧ out.state.nnzb = s.nnzb ∧
      out.staged.rowPointers.length = s.Nb + 1 ∧
      out.staged.colIndices.length = s.nnzb ∧
      out.staged.values.size = s.nnzb * bs * bs := by
  have hs1 : (if s.initialized = false then initBackend bs m s else s) = s := by
    simp [hinit]
  rw [solve_system_some_iff base bs pow normF e o s m b jm wc out s hs1] at h
  obtain ⟨cd, rhs, hcd, hrhs, hout⟩ := h
  obtain ⟨l1, l2, l3⟩ := convert_matrix_sizes base bs s.Nb s.nnzb m cd hcd
  subst hout
  exact ⟨hinit, rfl, rfl, l1, l2, l3⟩

theorem C6_witness :
    ((solve_system 0 3 powSpecials (fun _ => 0) 1 oZ sOld mBig bZ none []).map
        fun out => (out.state.initialized, out.state.Nb, out.state.nnzb,
          out.staged.rowPointers.length, out.staged.colIndices.length,
          out.staged.values.size)) = some (true, 1, 1, 2, 1, 9) := by
  have hs : (solve_system 0 3 powSpecials (fun _ => 0) 1 oZ sOld mBig bZ none []).isSome
      = true := by decide
  obtain ⟨out, hout⟩ := Option.isSome_iff_exists.mp hs
  obtain ⟨h1, h2, h3, h4, h5, h6⟩ :=
    C6_dimensions_frozen 0 3 powSpecials (fun _ => 0) 1 oZ sOld mBig bZ none [] out rfl hout
  rw [hout]
  simp [h1, h2, h3, h4, h5, h6, sOld]

/-- C6 counterexample: after a first solve with the 1x1-block matrix
mSmall, a second solve with the 2x2-block matrix mBig is not treated
as re-initialisation: the session keeps Nb = 1 and the staging buffers
of the second call are sized for the first matrix (2 row pointers, 9
value cells) instead of matching mBig (which needs 3 and 18), so
buffer sizes do not match the current matrix. -/
theorem C6_counterexample_dimension_change_ignored :
    (((solve_system 0 3 powSpecials (fun _ => 0) 1 oZ sFresh mSmall bZ none []).bind
        fun o1 => solve_system 0 3 powSpecials (fun _ => 0) 1 oZ o1.state mBig bZ none []).map
      fun o2 => (o2.staged.rowPointers.length, o2.staged.values.size, o2.state.Nb)) =
        some (2, 9, 1) ∧
      mBig.Nb + 1 = 3 ∧ mBig.nnzbs * 3 * 3 = 18 :=
  ⟨by decide, by decide, by decide⟩

/-- C7 (confirmed): on a fresh session with well-sized caller arrays
the call returns normally for every numerical outcome of the single
rocalution Solve invocation — convergence, divergence, iteration cap
or stagnation alike: the return code is always GPU_SOLVER_SUCCESS and
the returned record is populated from that one outcome (no retry, no
exception path for numerical non-convergence). -/
theorem C7_never_raises [Zero α] (pow : FVal → FVal → FVal) (normF : List α → ℚ)
    (e : ℚ) (o : RocOutcome α) (s : SessionState α) (m : BlockedMatrix α)
    (b : List α) (jm : Option (BlockedMatrix α)) (wc : List α)
    (hinit : s.initialized = false)
    (hrp : m.rowPointers.length = m.Nb + 1)
    (hci : m.colIndices.length = m.nnzbs)
    (hv : m.nnzValues.length = 9 * m.nnzbs)
    (hb : m.Nb * 3 ≤ b.length) :
    ((solve_system 0 3 pow normF e o s m b jm wc).map
        fun out => (out.retCode, out.result)) =
      some (SolverStatus.GPU_SOLVER_SUCCESS,
        populateResult pow e (normF (b.take (m.Nb * 3))) o) := by
  have hs1 : (if s.initialized = false then initBackend 3 m s else s) = initBackend 3 m s := by
    simp [hinit]
  obtain ⟨g, hg, _, _⟩ := convert_matrix3_spec m hrp hci hv
  have hcd : convert_matrix 0 3 (initBackend 3 m s).Nb (initBackend 3 m s).nnzb m =
      some ⟨m.rowPointers, m.colIndices, ⟨m.nnzbs*3*3, g⟩⟩ := by
    simpa [initBackend] using hg
  have hrhs : copyLoop b ((initBackend 3 m s).Nb * 3) = some (b.take (m.Nb * 3)) := by
    simpa [initBackend] using copyLoop_spec b (m.Nb * 3) hb
  have h := (solve_system_some_iff 0 3 pow normF e o s m b jm wc _
    (initBackend 3 m s) hs1).mpr ⟨_, _, hcd, hrhs, rfl⟩
  rw [h]
  simp [initBackend]

theorem C7_witness :
    ((solve_system 0 3 powSpecials (fun _ => 0) 1 oZ sFresh mSmall bZ none []).map
        fun out => (out.retCode, out.result)) =
      some (SolverStatus.GPU_SOLVER_SUCCESS,
        populateResult powSpecials 1 ((fun _ => 0) (bZ.take (mSmall.Nb * 3))) oZ) :=
  C7_never_raises powSpecials (fun _ => 0) 1 oZ sFresh mSmall bZ none []
    rfl rfl rfl rfl (by decide)

/-- C8 (amended): the rocalution backend ignores the well-contribution
argument (and the jacMatrix argument) completely: two solve calls that
differ only in those arguments are the same call, so the system
actually solved never includes the external contributions. -/
theorem C8_wellcontribs_ignored [Zero α] (base bs : Nat) (pow : FVal → FVal → FVal)
    (normF : List α → ℚ) (e : ℚ) (o : RocOutcome α) (s : SessionState α)
    (m : BlockedMatrix α) (b : List α)
    (jm1 jm2 : Option (BlockedMatrix α)) (wc1 wc2 : List α) :
    solve_system base bs pow normF e o s m b jm1 wc1 =
      solve_system base bs pow normF e o s m b jm2 wc2 := rfl

/-- C8 counterexample: a solve call supplied with the nonzero external
contributions wcNonzero stages exactly the caller right-hand side
[1,2,3] and the plain block-transposed matrix values (cell 0 holds
value 10, cell 1 holds value 13 = source offset 3 of mSmall), so the
contributions were not added into the system before the Krylov loop. -/
theorem C8_counterexample_contributions_not_added :
    ((solve_system 0 3 powSpecials (fun _ => 0) 1 oZ sFresh mSmall bVals none wcNonzero).map
        fun out => (out.staged.rhs, out.staged.values.data 0, out.staged.values.data 1)) =
        some (bVals, some 10, some 13) ∧
      wcNonzero ≠ [0, 0, 0] :=
  ⟨by decide, by decide⟩

/-- C9 (confirmed): no solve call mutates the caller matrix: whenever
solve_system returns, the caller row pointers, column indices and
values are exactly what they were before the call (the source never
writes through the matrix pointer; it only copies into freshly
allocated staging buffers). -/
theorem C9_matrix_unchanged [Zero α] (base bs : Nat) (pow : FVal → FVal → FVal)
    (normF : List α → ℚ) (e : ℚ) (o : RocOutcome α) (s : SessionState α)
    (m : BlockedMatrix α) (b : List α) (jm : Option (BlockedMatrix α))
    (wc : List α) (out : SolveOutput α)
    (h : solve_system base bs pow normF e o s m b jm wc = some out) :
    out.matrixAfter = m ∧ out.matrixAfter.rowPointers = m.rowPointers ∧
      out.matrixAfter.colIndices = m.colIndices ∧
      out.matrixAfter.nnzValues = m.nnzValues := by
  rw [solve_system_some_iff base bs pow normF e o s m b jm wc out _ rfl] at h
  obtain ⟨cd, rhs, _, _, hout⟩ := h
  subst hout
  exact ⟨rfl, rfl, rfl, rfl⟩

theorem C9_witness :
    ((solve_system 0 3 powSpecials (fun _ => 0) 1 oZ sFresh mSmall bZ none []).map
        fun out => out.matrixAfter) = some mSmall := by
  have hs : (solve_system 0 3 powSpecials (fun _ => 0) 1 oZ sFresh mSmall bZ none []).isSome
      = true := by decide
  obtain ⟨out, hout⟩ := Option.isSome_iff_exists.mp hs
  obtain ⟨h1, _, _, _⟩ :=
    C9_matrix_unchanged 0 3 powSpecials (fun _ => 0) 1 oZ sFresh mSmall bZ none [] out hout
  rw [hout]
  simp [h1]

/-- C10 (confirmed): the caller block values reach the freshly
allocated staging value buffer only under the column-major convention
BCSR_IND_BASE = 0 (where each 3x3 block is transposed into the
buffer); under the row-major convention BCSR_IND_BASE = 1 the buffer
handed to the solver is exactly the untouched new[] allocation — no
value is ever written into it. -/
theorem C10_values_staged_only_for_column_major [Zero α] (pow : FVal → FVal → FVal)
    (normF : List α → ℚ) (e : ℚ) (o : RocOutcome α) (s : SessionState α)
    (m : BlockedMatrix α) (b : List α) (jm : Option (BlockedMatrix α)) (wc : List α)
    (hinit : s.initialized = false)
    (hrp : m.rowPointers.length = m.Nb + 1)
    (hci : m.colIndices.length = m.nnzbs)
    (hv : m.nnzValues.length = 9 * m.nnzbs)
    (hb : m.Nb * 3 ≤ b.length) :
    ((solve_system 1 3 pow normF e o s m b jm wc).map fun out => out.staged.values) =
        some (Buf.alloc α (m.nnzbs * 3 * 3)) ∧
      (∀ i < m.nnzbs, ∀ d < 9,
        ((solve_system 0 3 pow normF e o s m b jm wc).map
            fun out => out.staged.values.data (9*i + t3 d)) =
          some (m.nnzValues[9*i + d]?)) := by
  have hs1 : ∀ base : Nat,
      (if s.initialized = false then initBackend 3 m s else s) = initBackend 3 m s := by
    intro _
    simp [hinit]
  have h1 : copyLoop m.rowPointers (m.Nb + 1) = some m.rowPointers := by
    simpa [List.take_of_length_le, hrp] using copyLoop_spec m.rowPointers (m.Nb + 1) (by omega)
  have h2 : copyLoop m.colIndices m.nnzbs = some m.colIndices := by
    simpa [List.take_of_length_le, hci] using copyLoop_spec m.colIndices m.nnzbs (by omega)
  have hrhs : copyLoop b ((initBackend 3 m s).Nb * 3) = some (b.take (m.Nb * 3)) := by
    simpa [initBackend] using copyLoop_spec b (m.Nb * 3) hb
  constructor
  · have hcd1 : convert_matrix 1 3 (initBackend 3 m s).Nb (initBackend 3 m s).nnzb m =
        some ⟨m.rowPointers, m.colIndices, Buf.alloc α (m.nnzbs * 3 * 3)⟩ := by
      simp [convert_matrix, initBackend, h1, h2]
    have h := (solve_system_some_iff 1 3 pow normF e o s m b jm wc _
      (initBackend 3 m s) (hs1 1)).mpr ⟨_, _, hcd1, hrhs, rfl⟩
    rw [h]
    rfl
  · intro i hi d hd
    obtain ⟨g, hg, hpt, _⟩ := convert_matrix3_spec m hrp hci hv
    have hcd0 : convert_matrix 0 3 (initBackend 3 m s).Nb (initBackend 3 m s).nnzb m =
        some ⟨m.rowPointers, m.colIndices, ⟨m.nnzbs*3*3, g⟩⟩ := by
      simpa [initBackend] using hg
    have h := (solve_system_some_iff 0 3 pow normF e o s m b jm wc _
      (initBackend 3 m s) (hs1 0)).mpr ⟨_, _, hcd0, hrhs, rfl⟩
    rw [h]
    exact congrArg some (hpt i hi d hd)

theorem C10_witness :
    ((solve_system 1 3 powSpecials (fun _ => 0) 1 oZ sFresh mSmall bZ none []).map
        fun out => out.staged.values) = some (Buf.alloc ℚ (mSmall.nnzbs * 3 * 3)) ∧
      (∀ i < mSmall.nnzbs, ∀ d < 9,
        ((solve_system 0 3 powSpecials (fun _ => 0) 1 oZ sFresh mSmall bZ none []).map
            fun out => out.staged.values.data (9*i + t3 d)) =
          some (mSmall.nnzValues[9*i + d]?)) :=
  C10_values_staged_only_for_column_major powSpecials (fun _ => 0) 1 oZ sFresh mSmall bZ
    none [] rfl rfl rfl rfl (by decide)

end Rocalution
